import Mathlib

/-!
Verification of the CSV-driven admin tooling of this repository against its
natural-language specification.

The development shallowly embeds three fragments:

* `EnterpriseCSV` — `EnrollmentAttributeOverrideView.form_valid` from
  `openedx/features/enterprise_support/admin/views.py`, with the Django ORM
  tables `CourseEnrollment` and `CourseEnrollmentAttribute` modelled as
  explicit lists of records.
* `TeamsCSV` — the team-membership CSV import/export reconciliation exercised
  by `lms/djangoapps/teams/tests/test_csv.py`.  The implementation module
  (`lms/djangoapps/teams/csv.py`) is not part of the sources, so the
  operations are modelled from the specification and its tests.
* `CourseMeta` — `CourseMetadata` from
  `cms/djangoapps/models/settings/course_metadata.py`, with the descriptor's
  xblock fields modelled as a list of named, scoped fields.
-/

namespace EnterpriseCSV

/-- A data row of the enrollment-override CSV, as handed to `form_valid` by the
upload form.  The view reads the keys `lms_user_id`, `course_id` and
`opportunity_id` of each record; the form (not part of the sources) populates
them from the CSV columns `user_id`, `course_id`, `opportunity_id`. -/
structure CsvRecord where
  user_id : Nat
  course_id : String
  opportunity_id : String
deriving DecidableEq, Repr

/-- A row of the `CourseEnrollment` table, restricted to the columns the view
queries (`user_id`, `course_id`). -/
structure CourseEnrollment where
  user_id : Nat
  course_id : String
deriving DecidableEq, Repr

/-- A row of the `CourseEnrollmentAttribute` table: a keyed attribute attached
to one enrollment. -/
structure CourseEnrollmentAttribute where
  enrollment : CourseEnrollment
  ns : String
  name : String
  value : String
deriving DecidableEq, Repr

/-- A flash message posted on the request, either via `messages.success` or via
`messages.error`. -/
inductive Msg where
  | success (text : String)
  | error (text : String)
deriving DecidableEq, Repr

/-- Whether a flash message is an error message. -/
def Msg.isError : Msg → Bool
  | .success _ => false
  | .error _ => true

/-- The ORM query `CourseEnrollment.objects.get(user_id=..., course_id=...)`:
`none` models the `CourseEnrollment.DoesNotExist` branch. -/
def lookupEnrollment (enrollments : List CourseEnrollment) (r : CsvRecord) :
    Option CourseEnrollment :=
  enrollments.find? (fun e => e.user_id == r.user_id && e.course_id == r.course_id)

/-- Whether `update_or_create` would match an existing attribute row: the
lookup part of its key is `(enrollment, namespace, name)`. -/
def attrMatches (e : CourseEnrollment) (a : CourseEnrollmentAttribute) : Bool :=
  a.enrollment == e && a.ns == "salesforce" && a.name == "opportunity_id"

/-- `CourseEnrollmentAttribute.objects.update_or_create(enrollment=...,
namespace="salesforce", name="opportunity_id", defaults=dict(value=v))`:
update the matching row's value if one exists, otherwise insert a new row. -/
def updateOrCreateAttribute (attrs : List CourseEnrollmentAttribute)
    (e : CourseEnrollment) (v : String) : List CourseEnrollmentAttribute :=
  if attrs.any (attrMatches e) then
    attrs.map (fun a => if attrMatches e a then { a with value := v } else a)
  else
    attrs ++ [{ enrollment := e, ns := "salesforce", name := "opportunity_id", value := v }]

/-- The `for index, record in enumerate(csv_reader)` loop of `form_valid`:
threading the attribute table, it returns the final table together with the
collected `error_line_numbers` (each `str(index + 1)`).  `index` is the
0-based position of the first record of `records` in the whole file. -/
def processRecords (enrollments : List CourseEnrollment)
    (attrs : List CourseEnrollmentAttribute) :
    List CsvRecord → Nat → List CourseEnrollmentAttribute × List String
  | [], _ => (attrs, [])
  | r :: rest, index =>
    match lookupEnrollment enrollments r with
    | none =>
      let res := processRecords enrollments attrs rest (index + 1)
      (res.1, toString (index + 1) :: res.2)
    | some e =>
      processRecords enrollments (updateOrCreateAttribute attrs e r.opportunity_id)
        rest (index + 1)

/-- The text posted by `messages.success` in `form_valid`. -/
def successText : String :=
  "Successfully updated learner enrollment opportunity ids."

/-- The text posted by `messages.error` in `form_valid`, with the collected
line numbers joined by a comma. -/
def errorText (errorLineNumbers : List String) : String :=
  "Enrollment attributes were not updated for records at following line numbers " ++
    "in csv because no enrollment found for these records: " ++
    String.intercalate ", " errorLineNumbers

/-- The outcome of one call of `form_valid`: the resulting attribute table,
the collected error line numbers, `total_records`, and the flash messages
posted on the request (in posting order). -/
structure FormValidResult where
  attrs : List CourseEnrollmentAttribute
  errorLineNumbers : List String
  totalRecords : Nat
  messages : List Msg
deriving DecidableEq, Repr

/-- `EnrollmentAttributeOverrideView.form_valid`: process every record,
then post the success message unless every record failed
(`len(error_line_numbers) != total_records`), and post the aggregate error
message when any record failed (`if error_line_numbers:`). -/
def form_valid (enrollments : List CourseEnrollment)
    (attrs : List CourseEnrollmentAttribute) (records : List CsvRecord) :
    FormValidResult :=
  let res := processRecords enrollments attrs records 0
  let total := records.length
  { attrs := res.1
    errorLineNumbers := res.2
    totalRecords := total
    messages :=
      (if res.2.length ≠ total then [Msg.success successText] else []) ++
      (if res.2 ≠ [] then [Msg.error (errorText res.2)] else []) }

/-- The column names the upload form requires, in order. -/
def expectedColumns : List String := ["user_id", "course_id", "opportunity_id"]

/-- The error message shown for a CSV whose header row differs from
`expectedColumns` (text fixed by `test_post_with_incorrect_csv_header`). -/
def headerErrorText (found : List String) : String :=
  "Expected a CSV file with [" ++ String.intercalate ", " expectedColumns ++
    "] columns, but found [" ++ String.intercalate ", " found ++ "] columns instead."

/-- Modelled from the spec: the upload form validates the CSV via
`enterprise.admin.utils.validate_csv` (not part of the sources) before
`form_valid` runs.  A header row other than exactly
`[user_id, course_id, opportunity_id]` rejects the whole file with the
descriptive error message and processes no row; a matching header hands the
data rows to `form_valid`. -/
def uploadCsv (enrollments : List CourseEnrollment)
    (attrs : List CourseEnrollmentAttribute) (header : List String)
    (records : List CsvRecord) : FormValidResult :=
  if header = expectedColumns then
    form_valid enrollments attrs records
  else
    { attrs := attrs
      errorLineNumbers := []
      totalRecords := 0
      messages := [Msg.error (headerErrorText header)] }

end EnterpriseCSV

namespace TeamsCSV

/-- A `CourseTeam` row: a team lives in one course, belongs to one team set
(`topic_id`), and carries the `organization_protected` flag. -/
structure CourseTeam where
  course_id : String
  topic_id : String
  name : String
  organization_protected : Bool
deriving DecidableEq, Repr

/-- A `CourseTeamMembership` row, identifying the team by its course, team set
and name. -/
structure CourseTeamMembership where
  user : String
  course_id : String
  topic_id : String
  team_name : String
deriving DecidableEq, Repr

/-- An audit event emitted by the import (`edx.team.learner_added` or
`edx.team.learner_removed`). -/
inductive TeamEvent where
  | learner_added (course_id topic_id team_name user : String)
  | learner_removed (course_id topic_id team_name user : String)
deriving DecidableEq, Repr

/-- The database state the import reconciles against: the team and
team-membership tables. -/
structure TeamsState where
  teams : List CourseTeam
  memberships : List CourseTeamMembership
deriving DecidableEq, Repr

/-- A row of the team-membership CSV: the `user` and `mode` columns followed
by one cell per team set; a cell is a team name or blank (`none`). -/
structure CsvRow where
  user : String
  mode : String
  cells : List (String × Option String)
deriving DecidableEq, Repr

/-- The cell of `row` under the team-set column `ts` (blank when the column is
absent, as `DictWriter` fills absent keys with the empty cell). -/
def cellFor (row : CsvRow) (ts : String) : Option String :=
  match row.cells.find? (fun c => c.1 == ts) with
  | some c => c.2
  | none => none

/-- The name of the team of team set `ts` in course `course` that `user`
currently belongs to, if any. -/
def currentTeamName (st : TeamsState) (course user ts : String) : Option String :=
  (st.memberships.find?
      (fun m => m.user == user && m.course_id == course && m.topic_id == ts)).map
    (fun m => m.team_name)

/-- Whether `user` is a member of the team `(course, ts, name)`
(`CourseTeamMembership.is_user_on_team`). -/
def is_user_on_team (st : TeamsState) (user course ts name : String) : Bool :=
  st.memberships.any
    (fun m => m.user == user && m.course_id == course && m.topic_id == ts &&
      m.team_name == name)

/-- Look up the team named `name` in team set `ts` of course `course`. -/
def findTeam (st : TeamsState) (course ts name : String) : Option CourseTeam :=
  st.teams.find? (fun t => t.course_id == course && t.topic_id == ts && t.name == name)

/-- Modelled from the spec: `TeamMembershipImportManager.add_user_to_team`
(`lms/djangoapps/teams/csv.py`, not part of the sources).  When no team of the
given name exists in the team set, a team is created whose
`organization_protected` flag is set exactly when the row's enrollment mode is
`masters`; the user is then added to the team and one
`edx.team.learner_added` event is emitted. -/
def add_user_to_team (st : TeamsState) (course ts : String) (row : CsvRow)
    (name : String) : TeamsState × List TeamEvent :=
  let teams' :=
    match findTeam st course ts name with
    | some _ => st.teams
    | none =>
      st.teams ++
        [{ course_id := course
           topic_id := ts
           name := name
           organization_protected := row.mode == "masters" }]
  ({ teams := teams'
     memberships := st.memberships ++
       [{ user := row.user, course_id := course, topic_id := ts, team_name := name }] },
   [TeamEvent.learner_added course ts name row.user])

/-- Modelled from the spec:
`TeamMembershipImportManager.remove_user_from_team_for_reassignment`.  The
user's membership in team set `ts` of course `course` (whose team is named
`name`) is deleted — memberships in other courses are untouched — and one
`edx.team.learner_removed` event is emitted. -/
def remove_user_from_team (st : TeamsState) (course ts user name : String) :
    TeamsState × List TeamEvent :=
  ({ teams := st.teams
     memberships := st.memberships.filter
       (fun m => !(m.user == user && m.course_id == course && m.topic_id == ts)) },
   [TeamEvent.learner_removed course ts name user])

/-- Modelled from the spec: the reconciliation of one row against one team
set.  The desired team (the row's cell) is diffed against the user's current
membership and only the needed remove/add operations run: equal means no
operation, a blank cell removes, a new name adds (removing the old team first
when moving within the team set). -/
def reconcile_teamset (st : TeamsState) (course : String) (row : CsvRow)
    (ts : String) : TeamsState × List TeamEvent :=
  match cellFor row ts, currentTeamName st course row.user ts with
  | none, none => (st, [])
  | none, some c => remove_user_from_team st course ts row.user c
  | some d, none => add_user_to_team st course ts row d
  | some d, some c =>
    if d = c then (st, [])
    else
      let r := remove_user_from_team st course ts row.user c
      let a := add_user_to_team r.1 course ts row d
      (a.1, r.2 ++ a.2)

/-- Modelled from the spec: one CSV row is reconciled against every team set
of the course, in order. -/
def reconcile_row (st : TeamsState) (course : String) :
    List String → CsvRow → TeamsState × List TeamEvent
  | [], _ => (st, [])
  | ts :: rest, row =>
    let r := reconcile_teamset st course row ts
    let r' := reconcile_row r.1 course rest row
    (r'.1, r.2 ++ r'.2)

/-- Modelled from the spec:
`TeamMembershipImportManager.set_team_membership_from_csv` is a single linear
pass reconciling each row in turn. -/
def set_team_membership_from_csv (st : TeamsState) (course : String)
    (teamset_ids : List String) : List CsvRow → TeamsState × List TeamEvent
  | [] => (st, [])
  | row :: rest =>
    let r := reconcile_row st course teamset_ids row
    let r' := set_team_membership_from_csv r.1 course teamset_ids rest
    (r'.1, r.2 ++ r'.2)

/-- Modelled from the spec: the CSV row exported for one enrolled learner —
the `user` and `mode` columns followed by, per team set, the name of the team
the learner is on (blank when none). -/
def export_row (st : TeamsState) (course : String) (teamset_ids : List String)
    (user mode : String) : CsvRow :=
  { user := user, mode := mode,
    cells := teamset_ids.map (fun ts => (ts, currentTeamName st course user ts)) }

/-- Modelled from the spec: `load_team_membership_csv` writes one row per
enrolled learner (given here as `(user, mode)` pairs). -/
def load_team_membership_csv (st : TeamsState) (course : String)
    (teamset_ids : List String) (enrollments : List (String × String)) :
    List CsvRow :=
  enrollments.map (fun e => export_row st course teamset_ids e.1 e.2)

end TeamsCSV

namespace CourseMeta

/-- An xblock field scope; `fetch_all` keeps only `Scope.settings` fields. -/
inductive Scope where
  | settings
  | content
deriving DecidableEq, Repr

/-- One xblock field of the course descriptor: its name, scope, current value
(`getattr`) and `from_json` conversion (which may raise `TypeError` /
`ValueError` / `ValidationError`, modelled as `Except.error`). -/
structure FieldD where
  name : String
  scope : Scope
  value : String
  from_json : String → Except String String

/-- The course descriptor: its fields.  `start` is the course start date,
kept as a timestamp for the comparison with the current time. -/
structure Descriptor where
  fields : List FieldD
  start : Int

/-- One entry of the posted json dict: the `value` and the `display_name`
used in error messages. -/
structure JsonModel where
  value : String
  display_name : String
deriving DecidableEq, Repr

/-- The settings and flags `get_exclude_list_of_fields` consults, each
already evaluated (the two course-key waffle flags at the given course key,
`GlobalStaff().has_user` at the current user). -/
structure SiteConfig where
  enable_export_git : Bool
  enable_edxnotes : Bool
  enable_other_course_settings : Bool
  enable_video_upload_pipeline : Bool
  enable_autoadvance_videos : Bool
  social_sharing_custom_course_urls : Bool
  enable_teams : Bool
  enable_video_bumper : Bool
  custom_courses_edx : Bool
  enable_openbadges : Bool
  xblock_studio_config_enabled : Bool
  proctoring_provider_overrides_enabled : Bool
  course_enable_unenrolled_access : Bool
  user_is_global_staff : Bool
  proctortrack_backend_available : Bool
deriving DecidableEq, Repr

/-- `CourseMetadata.FIELDS_EXCLUDE_LIST`. -/
def FIELDS_EXCLUDE_LIST : List String :=
  ["cohort_config", "xml_attributes", "start", "end", "enrollment_start",
   "enrollment_end", "certificate_available_date", "tabs", "graceperiod",
   "show_timezone", "format", "graded", "hide_from_toc", "pdf_textbooks",
   "user_partitions", "name", "tags", "visible_to_staff_only", "group_access",
   "pre_requisite_courses", "entrance_exam_enabled",
   "entrance_exam_minimum_score_pct", "entrance_exam_id", "is_entrance_exam",
   "in_entrance_exam", "language", "certificates", "minimum_grade_credit",
   "default_time_limit_minutes", "is_proctored_enabled", "is_time_limited",
   "is_practice_exam", "exam_review_rules", "hide_after_due", "self_paced",
   "show_correctness", "chrome", "default_tab",
   "highlights_enabled_for_messaging", "is_onboarding_exam"]

/-- `CourseMetadata.get_exclude_list_of_fields`: the static list plus the
flag-dependent additions, in source order. -/
def get_exclude_list_of_fields (cfg : SiteConfig) : List String :=
  FIELDS_EXCLUDE_LIST ++
    (if cfg.enable_export_git then [] else ["giturl"]) ++
    (if cfg.enable_edxnotes then [] else ["edxnotes"]) ++
    (if cfg.enable_other_course_settings then [] else ["other_course_settings"]) ++
    (if cfg.enable_video_upload_pipeline then [] else ["video_upload_pipeline"]) ++
    (if cfg.enable_autoadvance_videos then [] else ["video_auto_advance"]) ++
    (if cfg.social_sharing_custom_course_urls then [] else ["social_sharing_url"]) ++
    (if cfg.enable_teams then [] else ["teams_configuration"]) ++
    (if cfg.enable_video_bumper then [] else ["video_bumper"]) ++
    (if cfg.custom_courses_edx then [] else ["enable_ccx", "ccx_connector"]) ++
    (if cfg.enable_openbadges then [] else ["issue_badges"]) ++
    (if cfg.xblock_studio_config_enabled then [] else ["allow_unsupported_xblocks"]) ++
    (if cfg.proctoring_provider_overrides_enabled then [] else ["proctoring_provider"]) ++
    (if cfg.course_enable_unenrolled_access then [] else ["course_visibility"]) ++
    (if cfg.user_is_global_staff then [] else ["create_zendesk_tickets"]) ++
    (if cfg.proctortrack_backend_available then [] else ["proctoring_escalation_email"])

/-- Look up a field of the descriptor by name (`descriptor.fields[key]`). -/
def lookupField (fields : List FieldD) (key : String) : Option FieldD :=
  fields.find? (fun f => f.name == key)

/-- `getattr(descriptor, key)`; `none` models the attribute being absent
(`hasattr` false). -/
def getattr (d : Descriptor) (key : String) : Option String :=
  (lookupField d.fields key).map (fun f => f.value)

/-- `setattr(descriptor, key, value)`. -/
def setattrFields (fields : List FieldD) (key v : String) : List FieldD :=
  fields.map (fun f => if f.name == key then { f with value := v } else f)

/-- `setattr` lifted to the descriptor. -/
def setattrD (d : Descriptor) (key v : String) : Descriptor :=
  { d with fields := setattrFields d.fields key v }

/-- `CourseMetadata.fetch_all`: every `Scope.settings` field, keyed by name.
The presentation parts of each entry (`display_name`, `help`, deprecation
flags) are dropped; only the field's json value is kept. -/
def fetch_all (d : Descriptor) : List (String × String) :=
  (d.fields.filter (fun f => f.scope == Scope.settings)).map (fun f => (f.name, f.value))

/-- `CourseMetadata.fetch`: `fetch_all` minus the excluded field names. -/
def fetch (cfg : SiteConfig) (d : Descriptor) : List (String × String) :=
  (fetch_all d).filter (fun kv => !(get_exclude_list_of_fields cfg).contains kv.1)

/-- `CourseMetadata.update_from_dict`: set every key, and save to the
modulestore (modelled as a list of saved snapshots) when `save` is true and
any key changed.  Returns `cls.fetch` of the updated descriptor together with
the updated descriptor and store. -/
def update_from_dict (cfg : SiteConfig) (key_values : List (String × String))
    (d : Descriptor) (save : Bool) (store : List Descriptor) :
    List (String × String) × Descriptor × List Descriptor :=
  let d' := key_values.foldl (fun acc kv => setattrD acc kv.1 kv.2) d
  (fetch cfg d', d',
    if save && !key_values.isEmpty then store ++ [d'] else store)

/-- The `for key, model in jsondict` loop of `update_from_json`: skip excluded
keys, convert changed values via `from_json`, and raise `ValueError` on a
conversion failure (message built from the model's `display_name`). -/
def collect_key_values (excl : List String) (d : Descriptor) :
    List (String × JsonModel) → Except String (List (String × String))
  | [] => Except.ok []
  | (key, model) :: rest =>
    if excl.contains key then collect_key_values excl d rest
    else
      match lookupField d.fields key with
      | none => collect_key_values excl d rest
      | some f =>
        if f.value ≠ model.value then
          match f.from_json model.value with
          | Except.ok v =>
            (collect_key_values excl d rest).map (fun kvs => (key, v) :: kvs)
          | Except.error e =>
            Except.error ("Incorrect format for field " ++ model.display_name ++ ". " ++ e)
        else collect_key_values excl d rest

/-- `CourseMetadata.update_from_json`: build the exclusion list (keeping
`tabs` editable when `filter_tabs` is false), collect the changed key/values,
and apply them via `update_from_dict` with `save=True`. -/
def update_from_json (cfg : SiteConfig) (d : Descriptor)
    (jsondict : List (String × JsonModel)) (filter_tabs : Bool)
    (store : List Descriptor) :
    Except String (List (String × String) × Descriptor × List Descriptor) :=
  let excl :=
    if filter_tabs then get_exclude_list_of_fields cfg
    else (get_exclude_list_of_fields cfg).erase "tabs"
  (collect_key_values excl d jsondict).map
    (fun kvs => update_from_dict cfg kvs d true store)

/-- The validation loop of `validate_and_update_from_json`: unlike
`update_from_json` it does not abort at the first failure but collects the
error objects (here `(message, model)` pairs) while still gathering the
convertible key/values. -/
def validate_fields (d : Descriptor) :
    List (String × JsonModel) →
      List (String × String) × List (String × JsonModel)
  | [] => ([], [])
  | (key, model) :: rest =>
    let r := validate_fields d rest
    match lookupField d.fields key with
    | none => r
    | some f =>
      if f.value ≠ model.value then
        match f.from_json model.value with
        | Except.ok v => ((key, v) :: r.1, r.2)
        | Except.error e => (r.1, (e, model) :: r.2)
      else r

/-- `CourseMetadata._has_requested_proctoring_provider_changed`.  The source
passes the whole model dict (not its `value`) as `requested_provider` and
compares it with the provider string, so whenever the model is present the
two are never equal and the provider counts as changed. -/
def _has_requested_proctoring_provider_changed (_current : String)
    (requested : Option JsonModel) : Bool :=
  match requested with
  | none => false
  | some _ => true

/-- The error message of the after-course-start proctoring-provider check
(`settings.PARTNER_SUPPORT_EMAIL`, falling back to the word support). -/
def proctoringAfterStartText (partner_support_email : String) : String :=
  "The proctoring provider cannot be modified after a course has started. Contact " ++
    (if partner_support_email = "" then "support" else partner_support_email) ++
    " for assistance"

/-- The `missing_escalation_email_msg` error message for a given provider. -/
def missingEscalationText (provider : String) : String :=
  "Provider " ++ provider ++ " requires an exam escalation contact."

/-- The value returned by one call of `validate_and_update_from_json`:
`(did_validate, errors, updated_data)` plus the resulting descriptor and
modulestore. -/
structure ValidateResult where
  did_validate : Bool
  errors : List (String × JsonModel)
  updated_data : Option (List (String × String))
  descriptor : Descriptor
  store : List Descriptor

/-- The `filtered_dict` of `validate_and_update_from_json`: the payload
without the excluded keys (keeping `tabs` editable when `filter_tabs` is
false). -/
def filtered_jsondict (cfg : SiteConfig) (jsondict : List (String × JsonModel))
    (filter_tabs : Bool) : List (String × JsonModel) :=
  let excl :=
    if filter_tabs then get_exclude_list_of_fields cfg
    else (get_exclude_list_of_fields cfg).erase "tabs"
  jsondict.filter (fun kv => !excl.contains kv.1)

/-- The error objects accumulated by `validate_and_update_from_json`: the
per-field conversion failures followed by the two proctoring checks, in
source order.  `did_validate` is false exactly when this list is non-empty,
since every place that clears `did_validate` also appends an error. -/
def validation_errors (cfg : SiteConfig) (d : Descriptor)
    (jsondict : List (String × JsonModel)) (user_is_staff : Bool) (now : Int)
    (partner_support_email : String) (filter_tabs : Bool) :
    List (String × JsonModel) :=
  let filtered := filtered_jsondict cfg jsondict filter_tabs
  let vf := validate_fields d filtered
  let proctoring_provider_model :=
    (filtered.find? (fun kv => kv.1 == "proctoring_provider")).map (fun kv => kv.2)
  let after_start_errors : List (String × JsonModel) :=
    match proctoring_provider_model with
    | none => []
    | some m =>
      if !user_is_staff &&
          _has_requested_proctoring_provider_changed
            ((getattr d "proctoring_provider").getD "") proctoring_provider_model &&
          decide (now > d.start) then
        [(proctoringAfterStartText partner_support_email, m)]
      else []
  let escalation_email_model :=
    (filtered.find? (fun kv => kv.1 == "proctoring_escalation_email")).map
      (fun kv => kv.2)
  let escalation_email :=
    match escalation_email_model with
    | some m => m.value
    | none => (getattr d "proctoring_escalation_email").getD ""
  let proctortrack_errors : List (String × JsonModel) :=
    match proctoring_provider_model with
    | none => []
    | some m =>
      if m.value == "proctortrack" && escalation_email == "" then
        [(missingEscalationText m.value, m)]
      else []
  let escalation_only_errors : List (String × JsonModel) :=
    match escalation_email_model, proctoring_provider_model with
    | some em, none =>
      if (getattr d "proctoring_provider").getD "" == "proctortrack" &&
          escalation_email == "" then
        [(missingEscalationText ((getattr d "proctoring_provider").getD ""), em)]
      else []
    | _, _ => []
  vf.2 ++ after_start_errors ++ proctortrack_errors ++ escalation_only_errors

/-- `CourseMetadata.validate_and_update_from_json`: filter the payload by the
exclusion list, validate every field, run the two proctoring checks, and only
when everything validated apply the collected key/values via
`update_from_dict` with `save=False`.  `now` is the current UTC time,
`user_is_staff` is `user.is_staff`. -/
def validate_and_update_from_json (cfg : SiteConfig) (d : Descriptor)
    (jsondict : List (String × JsonModel)) (user_is_staff : Bool) (now : Int)
    (partner_support_email : String) (filter_tabs : Bool)
    (store : List Descriptor) : ValidateResult :=
  let errors := validation_errors cfg d jsondict user_is_staff now
    partner_support_email filter_tabs
  if errors.isEmpty then
    let u := update_from_dict cfg
      (validate_fields d (filtered_jsondict cfg jsondict filter_tabs)).1 d false store
    { did_validate := true, errors := errors, updated_data := some u.1,
      descriptor := u.2.1, store := u.2.2 }
  else
    { did_validate := false, errors := errors, updated_data := none,
      descriptor := d, store := store }

end CourseMeta

namespace EnterpriseCSV

/-- Unfolding equation of the loop at a record whose lookup misses. -/
theorem processRecords_cons_none {enrollments : List CourseEnrollment}
    {r : CsvRecord} (attrs : List CourseEnrollmentAttribute)
    (rest : List CsvRecord) (index : Nat)
    (h : lookupEnrollment enrollments r = none) :
    processRecords enrollments attrs (r :: rest) index =
      ((processRecords enrollments attrs rest (index + 1)).1,
        toString (index + 1) :: (processRecords enrollments attrs rest (index + 1)).2) := by
  simp [processRecords, h]

/-- Unfolding equation of the loop at a record whose lookup succeeds. -/
theorem processRecords_cons_some {enrollments : List CourseEnrollment}
    {r : CsvRecord} {en : CourseEnrollment}
    (attrs : List CourseEnrollmentAttribute) (rest : List CsvRecord) (index : Nat)
    (h : lookupEnrollment enrollments r = some en) :
    processRecords enrollments attrs (r :: rest) index =
      processRecords enrollments (updateOrCreateAttribute attrs en r.opportunity_id)
        rest (index + 1) := by
  simp [processRecords, h]

/-- The final attribute table does not depend on the running index. -/
theorem processRecords_fst_index (enrollments : List CourseEnrollment) :
    ∀ (records : List CsvRecord) (attrs : List CourseEnrollmentAttribute)
      (index index' : Nat),
      (processRecords enrollments attrs records index).1 =
        (processRecords enrollments attrs records index').1 := by
  intro records
  induction records with
  | nil => intro attrs index index'; rfl
  | cons r rest ih =>
    intro attrs index index'
    cases h : lookupEnrollment enrollments r with
    | none =>
      rw [processRecords_cons_none attrs rest index h,
        processRecords_cons_none attrs rest index' h]
      exact ih attrs (index + 1) (index' + 1)
    | some en =>
      rw [processRecords_cons_some attrs rest index h,
        processRecords_cons_some attrs rest index' h]
      exact ih _ (index + 1) (index' + 1)

/-- A missing row contributes its (1-based) line number to the error list. -/
theorem mem_processRecords_errors (enrollments : List CourseEnrollment) :
    ∀ (pre : List CsvRecord) (r : CsvRecord) (post : List CsvRecord)
      (attrs : List CourseEnrollmentAttribute) (index : Nat),
      lookupEnrollment enrollments r = none →
      toString (index + pre.length + 1) ∈
        (processRecords enrollments attrs (pre ++ r :: post) index).2 := by
  intro pre
  induction pre with
  | nil =>
    intro r post attrs index hmiss
    rw [List.nil_append, processRecords_cons_none attrs post index hmiss]
    simp
  | cons p pre ih =>
    intro r post attrs index hmiss
    rw [List.cons_append]
    have harith : index + (p :: pre).length + 1 = (index + 1) + pre.length + 1 := by
      simp; omega
    rw [harith]
    cases h : lookupEnrollment enrollments p with
    | none =>
      rw [processRecords_cons_none attrs (pre ++ r :: post) index h]
      exact List.mem_cons_of_mem _ (ih r post attrs (index + 1) hmiss)
    | some en =>
      rw [processRecords_cons_some attrs (pre ++ r :: post) index h]
      exact ih r post _ (index + 1) hmiss

/-- The final attribute table is the one obtained by processing only the rows
whose enrollment lookup succeeds: a lookup miss never touches the attribute
table, and the matched rows are processed exactly as without the misses. -/
theorem processRecords_fst_filter (enrollments : List CourseEnrollment) :
    ∀ (records : List CsvRecord) (attrs : List CourseEnrollmentAttribute)
      (index : Nat),
      (processRecords enrollments attrs records index).1 =
        (processRecords enrollments attrs
          (records.filter (fun x => (lookupEnrollment enrollments x).isSome)) index).1 := by
  intro records
  induction records with
  | nil => intro attrs index; rfl
  | cons r rest ih =>
    intro attrs index
    cases h : lookupEnrollment enrollments r with
    | none =>
      rw [processRecords_cons_none attrs rest index h]
      have hf : (r :: rest).filter (fun x => (lookupEnrollment enrollments x).isSome) =
          rest.filter (fun x => (lookupEnrollment enrollments x).isSome) := by
        simp [List.filter, h]
      rw [hf]
      calc (processRecords enrollments attrs rest (index + 1)).1
          = (processRecords enrollments attrs
              (rest.filter (fun x => (lookupEnrollment enrollments x).isSome))
              (index + 1)).1 := ih attrs (index + 1)
        _ = (processRecords enrollments attrs
              (rest.filter (fun x => (lookupEnrollment enrollments x).isSome))
              index).1 := processRecords_fst_index enrollments _ attrs _ index
    | some en =>
      rw [processRecords_cons_some attrs rest index h]
      have hf : (r :: rest).filter (fun x => (lookupEnrollment enrollments x).isSome) =
          r :: rest.filter (fun x => (lookupEnrollment enrollments x).isSome) := by
        simp [List.filter, h]
      rw [hf, processRecords_cons_some _ _ index h]
      exact ih _ (index + 1)

/-- The error list is empty exactly when every record's lookup succeeds. -/
theorem processRecords_errors_eq_nil (enrollments : List CourseEnrollment) :
    ∀ (records : List CsvRecord) (attrs : List CourseEnrollmentAttribute)
      (index : Nat),
      ((processRecords enrollments attrs records index).2 = [] ↔
        ∀ r ∈ records, (lookupEnrollment enrollments r).isSome) := by
  intro records
  induction records with
  | nil => intro attrs index; simp [processRecords]
  | cons r rest ih =>
    intro attrs index
    cases h : lookupEnrollment enrollments r with
    | none =>
      rw [processRecords_cons_none attrs rest index h]
      simp [h]
    | some en =>
      rw [processRecords_cons_some attrs rest index h]
      simp only [List.mem_cons]
      constructor
      · intro hnil x hx
        rcases hx with hx | hx
        · subst hx; simp [h]
        · exact ((ih _ (index + 1)).mp hnil) x hx
      · intro hall
        exact (ih _ (index + 1)).mpr (fun x hx => hall x (Or.inr hx))

/-- The error list never exceeds the record count. -/
theorem processRecords_errors_length_le (enrollments : List CourseEnrollment) :
    ∀ (records : List CsvRecord) (attrs : List CourseEnrollmentAttribute)
      (index : Nat),
      (processRecords enrollments attrs records index).2.length ≤ records.length := by
  intro records
  induction records with
  | nil => intro attrs index; simp [processRecords]
  | cons r rest ih =>
    intro attrs index
    cases h : lookupEnrollment enrollments r with
    | none =>
      rw [processRecords_cons_none attrs rest index h]
      simpa using Nat.succ_le_succ (ih attrs (index + 1))
    | some en =>
      rw [processRecords_cons_some attrs rest index h]
      exact Nat.le_succ_of_le (ih _ (index + 1))

/-- Every record fails exactly when the error list is as long as the record
list. -/
theorem processRecords_errors_length_eq (enrollments : List CourseEnrollment) :
    ∀ (records : List CsvRecord) (attrs : List CourseEnrollmentAttribute)
      (index : Nat),
      ((processRecords enrollments attrs records index).2.length = records.length ↔
        ∀ r ∈ records, lookupEnrollment enrollments r = none) := by
  intro records
  induction records with
  | nil => intro attrs index; simp [processRecords]
  | cons r rest ih =>
    intro attrs index
    cases h : lookupEnrollment enrollments r with
    | none =>
      rw [processRecords_cons_none attrs rest index h]
      simp only [List.length_cons, Nat.succ.injEq, List.mem_cons]
      constructor
      · intro hlen x hx
        rcases hx with hx | hx
        · subst hx; exact h
        · exact ((ih _ (index + 1)).mp (by simpa using hlen)) x hx
      · intro hall
        simpa using (ih attrs (index + 1)).mpr (fun x hx => hall x (Or.inr hx))
    | some en =>
      rw [processRecords_cons_some attrs rest index h]
      constructor
      · intro hlen
        exfalso
        have hle := processRecords_errors_length_le enrollments rest
          (updateOrCreateAttribute attrs en r.opportunity_id) (index + 1)
        simp only [List.length_cons] at hlen
        omega
      · intro hall
        exact absurd (hall r (List.mem_cons_self r rest)) (by simp [h])

/-- A one-enrollment database used to instantiate the theorems. -/
def sampleEnrollments : List CourseEnrollment :=
  [{ user_id := 1, course_id := "course-v1" }]

/-- A record whose enrollment lookup succeeds in `sampleEnrollments`. -/
def sampleHit : CsvRecord :=
  { user_id := 1, course_id := "course-v1", opportunity_id := "OP_1" }

/-- A record whose enrollment lookup misses in `sampleEnrollments`. -/
def sampleMiss : CsvRecord :=
  { user_id := 999, course_id := "course-v1", opportunity_id := "OP_2" }

/-- C1: a data row of the enrollment-override CSV whose user id and course id
match no `CourseEnrollment` adds its 1-based line number to the error list,
and the final attribute table is exactly the one obtained from the rows whose
lookup succeeds — so the missing row creates or modifies no
`CourseEnrollmentAttribute`, and the matched rows are unaffected by the
miss. -/
theorem enrollment_override_miss_adds_line_and_leaves_state
    (enrollments : List CourseEnrollment) (attrs : List CourseEnrollmentAttribute)
    (pre : List CsvRecord) (r : CsvRecord) (post : List CsvRecord)
    (hmiss : lookupEnrollment enrollments r = none) :
    toString (pre.length + 1) ∈
      (form_valid enrollments attrs (pre ++ r :: post)).errorLineNumbers ∧
    (form_valid enrollments attrs (pre ++ r :: post)).attrs =
      (form_valid enrollments attrs
        ((pre ++ r :: post).filter
          (fun x => (lookupEnrollment enrollments x).isSome))).attrs := by
  constructor
  · have h := mem_processRecords_errors enrollments pre r post attrs 0 hmiss
    simpa [form_valid] using h
  · simpa [form_valid] using
      processRecords_fst_filter enrollments (pre ++ r :: post) attrs 0

/-- Witness for C1 at a concrete two-row upload whose second row misses. -/
theorem enrollment_override_miss_adds_line_and_leaves_state_witness :
    lookupEnrollment sampleEnrollments sampleMiss = none ∧
    (toString (([sampleHit]).length + 1) ∈
        (form_valid sampleEnrollments [] ([sampleHit] ++ sampleMiss :: [])).errorLineNumbers ∧
      (form_valid sampleEnrollments [] ([sampleHit] ++ sampleMiss :: [])).attrs =
        (form_valid sampleEnrollments []
          (([sampleHit] ++ sampleMiss :: []).filter
            (fun x => (lookupEnrollment sampleEnrollments x).isSome))).attrs) :=
  ⟨by decide,
    enrollment_override_miss_adds_line_and_leaves_state sampleEnrollments []
      [sampleHit] sampleMiss [] (by decide)⟩

/-- C8: one missing-enrollment row does not abort the batch — the final
attribute table is the one obtained with that row deleted, so every other row
is still looked up and upserted — and the posted error messages are exactly
one aggregate message enumerating all failing line numbers. -/
theorem enrollment_override_failure_does_not_abort
    (enrollments : List CourseEnrollment) (attrs : List CourseEnrollmentAttribute)
    (pre : List CsvRecord) (r : CsvRecord) (post : List CsvRecord)
    (hmiss : lookupEnrollment enrollments r = none) :
    (form_valid enrollments attrs (pre ++ r :: post)).attrs =
      (form_valid enrollments attrs (pre ++ post)).attrs ∧
    (form_valid enrollments attrs (pre ++ r :: post)).messages.filter Msg.isError =
      [Msg.error (errorText
        (form_valid enrollments attrs (pre ++ r :: post)).errorLineNumbers)] := by
  constructor
  · have h1 := processRecords_fst_filter enrollments (pre ++ r :: post) attrs 0
    have h2 := processRecords_fst_filter enrollments (pre ++ post) attrs 0
    have hfil : (pre ++ r :: post).filter
          (fun x => (lookupEnrollment enrollments x).isSome) =
        (pre ++ post).filter (fun x => (lookupEnrollment enrollments x).isSome) := by
      simp [List.filter_append, List.filter_cons, hmiss]
    simp only [form_valid]
    rw [h1, hfil, ← h2]
  · have hne : (processRecords enrollments attrs (pre ++ r :: post) 0).2 ≠ [] :=
      List.ne_nil_of_mem (mem_processRecords_errors enrollments pre r post attrs 0 hmiss)
    by_cases hl : (processRecords enrollments attrs (pre ++ r :: post) 0).2.length ≠
        (pre ++ r :: post).length <;>
      simp [form_valid, hne, hl, Msg.isError]

/-- Witness for C8 at a concrete upload: miss first, hit afterwards. -/
theorem enrollment_override_failure_does_not_abort_witness :
    lookupEnrollment sampleEnrollments sampleMiss = none ∧
    ((form_valid sampleEnrollments [] ([] ++ sampleMiss :: [sampleHit])).attrs =
        (form_valid sampleEnrollments [] ([] ++ [sampleHit])).attrs ∧
      (form_valid sampleEnrollments []
          ([] ++ sampleMiss :: [sampleHit])).messages.filter Msg.isError =
        [Msg.error (errorText
          (form_valid sampleEnrollments []
            ([] ++ sampleMiss :: [sampleHit])).errorLineNumbers)]) :=
  ⟨by decide,
    enrollment_override_failure_does_not_abort sampleEnrollments []
      [] sampleMiss [sampleHit] (by decide)⟩

/-- C10: the success message is posted exactly when at least one row's lookup
succeeded, the error message exactly when at least one row's lookup failed;
with zero data rows no message is posted at all. -/
theorem enrollment_override_message_conditions
    (enrollments : List CourseEnrollment) (attrs : List CourseEnrollmentAttribute)
    (records : List CsvRecord) :
    (Msg.success successText ∈ (form_valid enrollments attrs records).messages ↔
      ∃ r ∈ records, (lookupEnrollment enrollments r).isSome) ∧
    ((∃ t, Msg.error t ∈ (form_valid enrollments attrs records).messages) ↔
      ∃ r ∈ records, lookupEnrollment enrollments r = none) ∧
    (form_valid enrollments attrs []).messages = [] := by
  refine ⟨?_, ?_, by simp [form_valid, processRecords]⟩
  · by_cases hl : (processRecords enrollments attrs records 0).2.length = records.length
    · have hall := (processRecords_errors_length_eq enrollments records attrs 0).mp hl
      have hnot : ¬ ∃ r ∈ records, (lookupEnrollment enrollments r).isSome := by
        rintro ⟨r, hr, hsome⟩
        rw [hall r hr] at hsome
        simp at hsome
      have hmem : Msg.success successText ∉
          (form_valid enrollments attrs records).messages := by
        simp only [form_valid]
        rw [if_neg (by simp [hl])]
        by_cases he : (processRecords enrollments attrs records 0).2 = [] <;> simp [he]
      exact iff_of_false hmem hnot
    · have hex : ∃ r ∈ records, (lookupEnrollment enrollments r).isSome := by
        have hno : ¬ ∀ r ∈ records, lookupEnrollment enrollments r = none :=
          fun hall => hl ((processRecords_errors_length_eq enrollments records attrs 0).mpr hall)
        push_neg at hno
        rcases hno with ⟨r, hr, hne⟩
        refine ⟨r, hr, ?_⟩
        cases hlk : lookupEnrollment enrollments r with
        | none => exact absurd hlk hne
        | some e => simp
      have hmem : Msg.success successText ∈
          (form_valid enrollments attrs records).messages := by
        simp [form_valid, hl]
      exact iff_of_true hmem hex
  · by_cases he : (processRecords enrollments attrs records 0).2 = []
    · have hall := (processRecords_errors_eq_nil enrollments records attrs 0).mp he
      have hnot : ¬ ∃ r ∈ records, lookupEnrollment enrollments r = none := by
        rintro ⟨r, hr, hnone⟩
        have hs := hall r hr
        rw [hnone] at hs
        simp at hs
      have hmem : ¬ ∃ t, Msg.error t ∈ (form_valid enrollments attrs records).messages := by
        rintro ⟨t, ht⟩
        by_cases hl : (processRecords enrollments attrs records 0).2.length ≠
            records.length <;>
          simp [form_valid, he, hl] at ht
      exact iff_of_false hmem hnot
    · have hex : ∃ r ∈ records, lookupEnrollment enrollments r = none := by
        have hno : ¬ ∀ r ∈ records, (lookupEnrollment enrollments r).isSome :=
          fun hall => he ((processRecords_errors_eq_nil enrollments records attrs 0).mpr hall)
        push_neg at hno
        rcases hno with ⟨r, hr, hns⟩
        refine ⟨r, hr, ?_⟩
        cases hlk : lookupEnrollment enrollments r with
        | none => rfl
        | some e => rw [hlk] at hns; simp at hns
      have hmem : ∃ t, Msg.error t ∈ (form_valid enrollments attrs records).messages := by
        refine ⟨errorText (processRecords enrollments attrs records 0).2, ?_⟩
        simp [form_valid, he]
      exact iff_of_true hmem hex

/-- C2: a CSV whose header row is not exactly
`[user_id, course_id, opportunity_id]` is rejected whole: the attribute table
is untouched, no row is processed, and the only message is the descriptive
error naming the expected and the found columns. -/
theorem header_mismatch_rejects_whole_file
    (enrollments : List CourseEnrollment) (attrs : List CourseEnrollmentAttribute)
    (header : List String) (records : List CsvRecord)
    (h : header ≠ expectedColumns) :
    uploadCsv enrollments attrs header records =
      { attrs := attrs, errorLineNumbers := [], totalRecords := 0,
        messages := [Msg.error (headerErrorText header)] } := by
  simp [uploadCsv, h]

/-- Witness for C2 at the header of `test_post_with_incorrect_csv_header`. -/
theorem header_mismatch_rejects_whole_file_witness :
    (["a", "b"] ≠ expectedColumns) ∧
    uploadCsv sampleEnrollments [] ["a", "b"] [sampleHit] =
      { attrs := [], errorLineNumbers := [], totalRecords := 0,
        messages := [Msg.error (headerErrorText ["a", "b"])] } :=
  ⟨by decide,
    header_mismatch_rejects_whole_file sampleEnrollments [] ["a", "b"] [sampleHit]
      (by decide)⟩

end EnterpriseCSV

namespace TeamsCSV

/-- Looking a key up in an association list built by pairing each key with a
computed value returns that key's computed value. -/
theorem find?_map_pair (f : String → Option String) :
    ∀ (ids : List String) (ts : String), ts ∈ ids →
      (ids.map (fun t => (t, f t))).find? (fun c => c.1 == ts) = some (ts, f ts) := by
  intro ids
  induction ids with
  | nil => intro ts h; simp at h
  | cons t rest ih =>
    intro ts hts
    by_cases h : t = ts
    · subst h
      simp [List.find?_cons_of_pos]
    · rw [List.map_cons, List.find?_cons_of_neg _ (by simpa using h)]
      refine ih ts ?_
      rcases List.mem_cons.mp hts with h' | h'
      · exact absurd h'.symm h
      · exact h'

/-- The exported cell of a team-set column is the learner's current team in
that team set. -/
theorem cellFor_export (st : TeamsState) (course user mode : String)
    (teamset_ids : List String) (ts : String) (hts : ts ∈ teamset_ids) :
    cellFor (export_row st course teamset_ids user mode) ts =
      currentTeamName st course user ts := by
  simp only [cellFor, export_row]
  rw [find?_map_pair (fun t => currentTeamName st course user t) teamset_ids ts hts]

/-- Reconciling one team set where the desired team equals the current team
changes nothing and emits no event. -/
theorem reconcile_teamset_noop (st : TeamsState) (course : String) (row : CsvRow)
    (ts : String)
    (h : cellFor row ts = currentTeamName st course row.user ts) :
    reconcile_teamset st course row ts = (st, []) := by
  unfold reconcile_teamset
  rw [h]
  cases currentTeamName st course row.user ts with
  | none => rfl
  | some c => simp

/-- Reconciling a whole row whose every cell matches the current membership
changes nothing and emits no event. -/
theorem reconcile_row_noop (st : TeamsState) (course : String) (row : CsvRow) :
    ∀ teamset_ids : List String,
      (∀ ts ∈ teamset_ids, cellFor row ts = currentTeamName st course row.user ts) →
      reconcile_row st course teamset_ids row = (st, []) := by
  intro ids
  induction ids with
  | nil => intro _; rfl
  | cons t rest ih =>
    intro hall
    have h1 := reconcile_teamset_noop st course row t (hall t (List.mem_cons_self t rest))
    have h2 := ih (fun ts hts => hall ts (List.mem_cons_of_mem t hts))
    simp [reconcile_row, h1, h2]

/-- C3: exporting the team-membership roster of a course and importing the
resulting file unchanged is the identity on the whole state — every learner's
team assignment in every team set is exactly what it was — and emits no audit
event.  Holds for every state, course, team-set list and enrollment list. -/
theorem teams_csv_round_trip (st : TeamsState) (course : String)
    (teamset_ids : List String) (enrollments : List (String × String)) :
    set_team_membership_from_csv st course teamset_ids
      (load_team_membership_csv st course teamset_ids enrollments) = (st, []) := by
  induction enrollments with
  | nil => rfl
  | cons e rest ih =>
    have hrow : reconcile_row st course teamset_ids
        (export_row st course teamset_ids e.1 e.2) = (st, []) :=
      reconcile_row_noop st course _ teamset_ids
        (fun ts hts => cellFor_export st course e.1 e.2 teamset_ids ts hts)
    simp only [load_team_membership_csv, List.map_cons] at ih ⊢
    simp [set_team_membership_from_csv, hrow, ih]

/-- C5: reconciling a row that moves a learner from `teamA` to `teamB` inside
one team set removes them from `teamA`, adds them to `teamB`, and emits
exactly one `learner_removed` and one `learner_added` event. -/
theorem user_move_emits_one_remove_one_add (st : TeamsState) (course : String)
    (row : CsvRow) (ts teamA teamB : String)
    (hcur : currentTeamName st course row.user ts = some teamA)
    (hdes : cellFor row ts = some teamB)
    (hne : teamB ≠ teamA) :
    (reconcile_teamset st course row ts).2 =
      [TeamEvent.learner_removed course ts teamA row.user,
       TeamEvent.learner_added course ts teamB row.user] ∧
    is_user_on_team (reconcile_teamset st course row ts).1 row.user course ts teamA
      = false ∧
    is_user_on_team (reconcile_teamset st course row ts).1 row.user course ts teamB
      = true := by
  have hred : reconcile_teamset st course row ts =
      ((add_user_to_team (remove_user_from_team st course ts row.user teamA).1
          course ts row teamB).1,
        (remove_user_from_team st course ts row.user teamA).2 ++
          (add_user_to_team (remove_user_from_team st course ts row.user teamA).1
            course ts row teamB).2) := by
    unfold reconcile_teamset
    rw [hdes, hcur]
    simp [hne]
  rw [hred]
  refine ⟨by simp [remove_user_from_team, add_user_to_team], ?_, ?_⟩
  · simp only [is_user_on_team, remove_user_from_team, add_user_to_team]
    refine (List.any_eq_false).mpr ?_
    intro m hm
    rcases List.mem_append.mp hm with hm | hm
    · have hq := (List.mem_filter.mp hm).2
      intro hp
      simp only [Bool.and_eq_true, beq_iff_eq] at hp
      obtain ⟨⟨⟨h1, h2⟩, h3⟩, _⟩ := hp
      simp [h1, h2, h3] at hq
    · simp only [List.mem_singleton] at hm
      subst hm
      intro hp
      simp only [Bool.and_eq_true, beq_iff_eq] at hp
      exact hne hp.2
  · simp [is_user_on_team, remove_user_from_team, add_user_to_team]

/-- C6: when `add_user_to_team` creates the team (no team of that name exists
yet in the team set), the created team is organization-protected exactly when
the row's enrollment mode is `masters`. -/
theorem new_team_protected_iff_masters (st : TeamsState) (course ts : String)
    (row : CsvRow) (name : String)
    (hnew : findTeam st course ts name = none) :
    findTeam (add_user_to_team st course ts row name).1 course ts name =
      some { course_id := course, topic_id := ts, name := name,
             organization_protected := row.mode == "masters" } ∧
    ∀ b : Bool, (row.mode == "masters") = b → (b = true ↔ row.mode = "masters") := by
  constructor
  · have hnew' : st.teams.find?
        (fun t => t.course_id == course && t.topic_id == ts && t.name == name) =
          none := by
      simpa [findTeam] using hnew
    simp only [add_user_to_team, findTeam, hnew', List.find?_append, Option.none_or]
    simp
  · intro b hb
    subst hb
    simp

/-- C7: a blank cell in a team-set column removes the learner from their
current team of that team set in this course, emits one `learner_removed`
event, leaves the team table alone, and leaves every membership of any other
course (in particular in identically named team sets) exactly as it was. -/
theorem blank_cell_removal_is_course_scoped (st : TeamsState) (course : String)
    (row : CsvRow) (ts c : String)
    (hblank : cellFor row ts = none)
    (hcur : currentTeamName st course row.user ts = some c) :
    (reconcile_teamset st course row ts).2 =
      [TeamEvent.learner_removed course ts c row.user] ∧
    is_user_on_team (reconcile_teamset st course row ts).1 row.user course ts c
      = false ∧
    (∀ m : CourseTeamMembership, m.course_id ≠ course →
      (m ∈ (reconcile_teamset st course row ts).1.memberships ↔
        m ∈ st.memberships)) ∧
    (reconcile_teamset st course row ts).1.teams = st.teams := by
  have hred : reconcile_teamset st course row ts =
      remove_user_from_team st course ts row.user c := by
    unfold reconcile_teamset
    rw [hblank, hcur]
  rw [hred]
  refine ⟨rfl, ?_, ?_, rfl⟩
  · simp only [is_user_on_team, remove_user_from_team]
    refine (List.any_eq_false).mpr ?_
    intro m hm
    have hq := (List.mem_filter.mp hm).2
    intro hp
    simp only [Bool.and_eq_true, beq_iff_eq] at hp
    obtain ⟨⟨⟨h1, h2⟩, h3⟩, _⟩ := hp
    simp [h1, h2, h3] at hq
  · intro m hmc
    simp only [remove_user_from_team]
    constructor
    · intro hm
      exact (List.mem_filter.mp hm).1
    · intro hm
      refine List.mem_filter.mpr ⟨hm, ?_⟩
      have : (m.course_id == course) = false := by
        simpa using hmc
      simp [this]

/-- A two-course state used to instantiate the theorems: `user1` is on the
identically named team `cross_team` of `teamset_1` in both courses. -/
def sampleState : TeamsState :=
  { teams :=
      [{ course_id := "course-1", topic_id := "teamset_1", name := "team_a",
         organization_protected := false },
       { course_id := "course-1", topic_id := "teamset_1", name := "team_b",
         organization_protected := false },
       { course_id := "course-1", topic_id := "teamset_1", name := "cross_team",
         organization_protected := false },
       { course_id := "course-2", topic_id := "teamset_1", name := "cross_team",
         organization_protected := false }]
    memberships :=
      [{ user := "user1", course_id := "course-1", topic_id := "teamset_1",
         team_name := "team_a" },
       { user := "user2", course_id := "course-1", topic_id := "teamset_1",
         team_name := "cross_team" },
       { user := "user2", course_id := "course-2", topic_id := "teamset_1",
         team_name := "cross_team" }] }

/-- Witness for C5: `user1` is moved from `team_a` to `team_b`. -/
theorem user_move_emits_one_remove_one_add_witness :
    (currentTeamName sampleState "course-1"
        (CsvRow.mk "user1" "audit" [("teamset_1", some "team_b")]).user "teamset_1" =
      some "team_a") ∧
    ((reconcile_teamset sampleState "course-1"
        (CsvRow.mk "user1" "audit" [("teamset_1", some "team_b")]) "teamset_1").2 =
      [TeamEvent.learner_removed "course-1" "teamset_1" "team_a"
        (CsvRow.mk "user1" "audit" [("teamset_1", some "team_b")]).user,
       TeamEvent.learner_added "course-1" "teamset_1" "team_b"
        (CsvRow.mk "user1" "audit" [("teamset_1", some "team_b")]).user] ∧
     is_user_on_team (reconcile_teamset sampleState "course-1"
        (CsvRow.mk "user1" "audit" [("teamset_1", some "team_b")]) "teamset_1").1
        (CsvRow.mk "user1" "audit" [("teamset_1", some "team_b")]).user
        "course-1" "teamset_1" "team_a" = false ∧
     is_user_on_team (reconcile_teamset sampleState "course-1"
        (CsvRow.mk "user1" "audit" [("teamset_1", some "team_b")]) "teamset_1").1
        (CsvRow.mk "user1" "audit" [("teamset_1", some "team_b")]).user
        "course-1" "teamset_1" "team_b" = true) :=
  ⟨by decide,
    user_move_emits_one_remove_one_add sampleState "course-1"
      (CsvRow.mk "user1" "audit" [("teamset_1", some "team_b")]) "teamset_1"
      "team_a" "team_b" (by decide) (by decide) (by decide)⟩

/-- Witness for C6: a `masters` row creating a fresh team. -/
theorem new_team_protected_iff_masters_witness :
    (findTeam sampleState "course-1" "teamset_1" "new_protected_team" = none) ∧
    (findTeam (add_user_to_team sampleState "course-1" "teamset_1"
        (CsvRow.mk "masters_learner" "masters" [("teamset_1", some "new_protected_team")])
        "new_protected_team").1 "course-1" "teamset_1" "new_protected_team" =
      some { course_id := "course-1", topic_id := "teamset_1",
             name := "new_protected_team",
             organization_protected :=
               (CsvRow.mk "masters_learner" "masters"
                 [("teamset_1", some "new_protected_team")]).mode == "masters" } ∧
     ∀ b : Bool,
       ((CsvRow.mk "masters_learner" "masters"
           [("teamset_1", some "new_protected_team")]).mode == "masters") = b →
         (b = true ↔
           (CsvRow.mk "masters_learner" "masters"
             [("teamset_1", some "new_protected_team")]).mode = "masters")) :=
  ⟨by decide,
    new_team_protected_iff_masters sampleState "course-1" "teamset_1"
      (CsvRow.mk "masters_learner" "masters" [("teamset_1", some "new_protected_team")])
      "new_protected_team" (by decide)⟩

/-- Witness for C7: a blank `teamset_1` cell for `user2`, who is on the
identically named team `cross_team` in both courses, removes only the
`course-1` membership. -/
theorem blank_cell_removal_is_course_scoped_witness :
    (cellFor (CsvRow.mk "user2" "audit" [("teamset_1", none)]) "teamset_1" = none) ∧
    ((reconcile_teamset sampleState "course-1"
        (CsvRow.mk "user2" "audit" [("teamset_1", none)]) "teamset_1").2 =
      [TeamEvent.learner_removed "course-1" "teamset_1" "cross_team"
        (CsvRow.mk "user2" "audit" [("teamset_1", none)]).user] ∧
     is_user_on_team (reconcile_teamset sampleState "course-1"
        (CsvRow.mk "user2" "audit" [("teamset_1", none)]) "teamset_1").1
        (CsvRow.mk "user2" "audit" [("teamset_1", none)]).user
        "course-1" "teamset_1" "cross_team" = false ∧
     (∀ m : CourseTeamMembership, m.course_id ≠ "course-1" →
       (m ∈ (reconcile_teamset sampleState "course-1"
          (CsvRow.mk "user2" "audit" [("teamset_1", none)]) "teamset_1").1.memberships ↔
         m ∈ sampleState.memberships)) ∧
     (reconcile_teamset sampleState "course-1"
        (CsvRow.mk "user2" "audit" [("teamset_1", none)]) "teamset_1").1.teams =
       sampleState.teams) :=
  ⟨by decide,
    blank_cell_removal_is_course_scoped sampleState "course-1"
      (CsvRow.mk "user2" "audit" [("teamset_1", none)]) "teamset_1" "cross_team"
      (by decide) (by decide)⟩

end TeamsCSV

namespace CourseMeta

/-- Membership in `fetch`: a key/value pair survives exactly when it is in
`fetch_all` and its key is not excluded. -/
theorem mem_fetch_iff (cfg : SiteConfig) (d : Descriptor) (k v : String) :
    (k, v) ∈ fetch cfg d ↔
      ((k, v) ∈ fetch_all d ∧ k ∉ get_exclude_list_of_fields cfg) := by
  simp [fetch, List.mem_filter, List.contains, List.elem_iff]

/-- With `filter_tabs` true, `update_from_json` is `collect_key_values` on
the full exclusion list followed by a saving `update_from_dict`. -/
theorem update_from_json_true (cfg : SiteConfig) (d : Descriptor)
    (jsondict : List (String × JsonModel)) (store : List Descriptor) :
    update_from_json cfg d jsondict true store =
      (collect_key_values (get_exclude_list_of_fields cfg) d jsondict).map
        (fun kvs => update_from_dict cfg kvs d true store) := rfl

/-- `collect_key_values` already skips excluded keys, so deleting them from
the payload beforehand changes nothing. -/
theorem collect_key_values_filter (excl : List String) (d : Descriptor) :
    ∀ jsondict : List (String × JsonModel),
      collect_key_values excl d
        (jsondict.filter (fun kv => !excl.contains kv.1)) =
        collect_key_values excl d jsondict := by
  intro l
  induction l with
  | nil => rfl
  | cons kv rest ih =>
    obtain ⟨key, model⟩ := kv
    rw [List.filter_cons]
    by_cases h : excl.contains key
    · simp only [h, Bool.not_true, Bool.false_eq_true, if_false]
      rw [ih]
      have hmem : key ∈ excl := List.elem_iff.mp h
      simp [collect_key_values, hmem]
    · have h' : excl.contains key = false := by
        cases hc : excl.contains key
        · rfl
        · exact absurd hc h
      simp only [h', Bool.not_false, if_true]
      simp only [collect_key_values, h', Bool.false_eq_true, if_false, ih]

/-- Keys collected by `collect_key_values` are never on the exclusion
list. -/
theorem collect_key_values_keys (excl : List String) (d : Descriptor) :
    ∀ (jsondict : List (String × JsonModel)) (kvs : List (String × String)),
      collect_key_values excl d jsondict = Except.ok kvs →
      ∀ kv ∈ kvs, kv.1 ∉ excl := by
  intro l
  induction l with
  | nil =>
    intro kvs h kv hkv
    simp only [collect_key_values] at h
    cases h
    simp at hkv
  | cons p rest ih =>
    obtain ⟨key, model⟩ := p
    intro kvs h kv hkv
    simp only [collect_key_values] at h
    by_cases hc : excl.contains key
    · rw [if_pos hc] at h
      exact ih kvs h kv hkv
    · rw [if_neg hc] at h
      cases hl : lookupField d.fields key with
      | none =>
        simp only [hl] at h
        exact ih kvs h kv hkv
      | some f =>
        simp only [hl] at h
        by_cases hv : f.value ≠ model.value
        · rw [if_pos hv] at h
          cases hj : f.from_json model.value with
          | error e => rw [hj] at h; simp at h
          | ok v =>
            rw [hj] at h
            cases hrest : collect_key_values excl d rest with
            | error e => rw [hrest] at h; simp [Except.map] at h
            | ok kvs' =>
              rw [hrest] at h
              simp only [Except.map, Except.ok.injEq] at h
              subst h
              rcases List.mem_cons.mp hkv with hkv | hkv
              · subst hkv
                intro hmem
                exact hc (List.elem_iff.mpr hmem)
              · exact ih kvs' hrest kv hkv
        · rw [if_neg hv] at h
          exact ih kvs h kv hkv

/-- Setting a different attribute leaves a field lookup unchanged. -/
theorem find?_setattrFields_ne (k v key : String) (h : k ≠ key) :
    ∀ fields : List FieldD,
      (setattrFields fields k v).find? (fun f => f.name == key) =
        fields.find? (fun f => f.name == key) := by
  intro fields
  induction fields with
  | nil => rfl
  | cons f rest ih =>
    simp only [setattrFields, List.map_cons] at ih ⊢
    by_cases hk : f.name = k
    · have hp : (f.name == key) = false := by
        rw [beq_eq_false_iff_ne, hk]
        exact h
      rw [if_pos (by simp [hk])]
      rw [List.find?_cons_of_neg _ (by simp [hp]),
        List.find?_cons_of_neg _ (by simp [hp])]
      exact ih
    · rw [if_neg (by simp [hk])]
      by_cases hf : f.name = key
      · rw [List.find?_cons_of_pos _ (by simp [hf]),
          List.find?_cons_of_pos _ (by simp [hf])]
      · rw [List.find?_cons_of_neg _ (by simp [hf]),
          List.find?_cons_of_neg _ (by simp [hf])]
        exact ih

/-- `getattr` at a key other than the one set is unchanged. -/
theorem getattr_setattrD_ne (d : Descriptor) (k v key : String) (h : k ≠ key) :
    getattr (setattrD d k v) key = getattr d key := by
  simp only [getattr, setattrD, lookupField]
  rw [find?_setattrFields_ne k v key h d.fields]

/-- `getattr` at a key touched by none of the set key/values is unchanged by
the whole fold. -/
theorem getattr_foldl_setattr (key : String) :
    ∀ (kvs : List (String × String)) (d : Descriptor),
      (∀ kv ∈ kvs, kv.1 ≠ key) →
      getattr (kvs.foldl (fun acc kv => setattrD acc kv.1 kv.2) d) key =
        getattr d key := by
  intro kvs
  induction kvs with
  | nil => intro d _; rfl
  | cons kv rest ih =>
    intro d hall
    rw [List.foldl_cons]
    rw [ih (setattrD d kv.1 kv.2) (fun x hx => hall x (List.mem_cons_of_mem _ hx))]
    exact getattr_setattrD_ne d kv.1 kv.2 key (hall kv (List.mem_cons_self kv rest))

/-- C4: `fetch` returns exactly the entries of `fetch_all` (the
settings-scoped fields) whose names are outside
`get_exclude_list_of_fields`; and `update_from_json` with `filter_tabs` true
behaves identically when the excluded keys are deleted from the payload —
they are silently skipped, never errors — and never changes an excluded
field of the descriptor. -/
theorem metadata_exclusion_list_respected (cfg : SiteConfig) (d : Descriptor)
    (jsondict : List (String × JsonModel)) (store : List Descriptor) :
    (∀ k v : String, (k, v) ∈ fetch cfg d ↔
      ((k, v) ∈ fetch_all d ∧ k ∉ get_exclude_list_of_fields cfg)) ∧
    (update_from_json cfg d jsondict true store =
      update_from_json cfg d
        (jsondict.filter
          (fun kv => !(get_exclude_list_of_fields cfg).contains kv.1)) true store) ∧
    (∀ key ∈ get_exclude_list_of_fields cfg,
      ∀ res, update_from_json cfg d jsondict true store = Except.ok res →
        getattr res.2.1 key = getattr d key) := by
  refine ⟨fun k v => mem_fetch_iff cfg d k v, ?_, ?_⟩
  · rw [update_from_json_true, update_from_json_true, collect_key_values_filter]
  · intro key hkey res hres
    rw [update_from_json_true] at hres
    cases hcol : collect_key_values (get_exclude_list_of_fields cfg) d jsondict with
    | error e => rw [hcol] at hres; simp [Except.map] at hres
    | ok kvs =>
      rw [hcol] at hres
      simp only [Except.map, Except.ok.injEq] at hres
      have hkeys := collect_key_values_keys (get_exclude_list_of_fields cfg) d
        jsondict kvs hcol
      rw [← hres]
      simp only [update_from_dict]
      exact getattr_foldl_setattr key kvs d
        (fun kv hkv heq => hkeys kv hkv (heq ▸ hkey))

/-- C9: `validate_and_update_from_json` is atomic with respect to
validation: with any error it returns `updated_data = none` and the
descriptor untouched; with none it returns the metadata of the updated
descriptor, computed with `save=False`; in every case the modulestore is
exactly as before the call. -/
theorem validate_is_atomic_and_never_saves (cfg : SiteConfig) (d : Descriptor)
    (jsondict : List (String × JsonModel)) (user_is_staff : Bool) (now : Int)
    (partner_support_email : String) (filter_tabs : Bool)
    (store : List Descriptor) :
    ((validate_and_update_from_json cfg d jsondict user_is_staff now
        partner_support_email filter_tabs store).did_validate = false →
      (validate_and_update_from_json cfg d jsondict user_is_staff now
        partner_support_email filter_tabs store).updated_data = none ∧
      (validate_and_update_from_json cfg d jsondict user_is_staff now
        partner_support_email filter_tabs store).descriptor = d) ∧
    ((validate_and_update_from_json cfg d jsondict user_is_staff now
        partner_support_email filter_tabs store).did_validate = true →
      (validate_and_update_from_json cfg d jsondict user_is_staff now
        partner_support_email filter_tabs store).updated_data =
        some (fetch cfg (validate_and_update_from_json cfg d jsondict user_is_staff
          now partner_support_email filter_tabs store).descriptor)) ∧
    (validate_and_update_from_json cfg d jsondict user_is_staff now
      partner_support_email filter_tabs store).store = store := by
  by_cases hemp : (validation_errors cfg d jsondict user_is_staff now
      partner_support_email filter_tabs).isEmpty
  · simp [validate_and_update_from_json, update_from_dict, hemp]
  · simp [validate_and_update_from_json, hemp]

/-- The identity `from_json` conversion used in the sample descriptor. -/
def okJson : String → Except String String := fun s => Except.ok s

/-- An always-failing `from_json` conversion. -/
def badJson : String → Except String String := fun _ => Except.error "invalid value"

/-- A configuration with every feature enabled: the exclusion list is exactly
`FIELDS_EXCLUDE_LIST`. -/
def sampleCfg : SiteConfig :=
  { enable_export_git := true
    enable_edxnotes := true
    enable_other_course_settings := true
    enable_video_upload_pipeline := true
    enable_autoadvance_videos := true
    social_sharing_custom_course_urls := true
    enable_teams := true
    enable_video_bumper := true
    custom_courses_edx := true
    enable_openbadges := true
    xblock_studio_config_enabled := true
    proctoring_provider_overrides_enabled := true
    course_enable_unenrolled_access := true
    user_is_global_staff := true
    proctortrack_backend_available := true }

/-- A small course descriptor with two editable settings fields (one of them
the excluded `tabs`) and one field whose conversion always fails. -/
def sampleDescriptor : Descriptor :=
  { fields :=
      [{ name := "display_name", scope := Scope.settings, value := "Course",
         from_json := okJson },
       { name := "tabs", scope := Scope.settings, value := "old_tabs",
         from_json := okJson },
       { name := "max_attempts", scope := Scope.settings, value := "3",
         from_json := badJson }]
    start := 0 }

/-- A payload touching the excluded `tabs` key and a normal key. -/
def samplePayload : List (String × JsonModel) :=
  [("tabs", { value := "new_tabs", display_name := "Tabs" }),
   ("display_name", { value := "New Name", display_name := "Display Name" })]

/-- A payload whose only entry fails `from_json` conversion. -/
def samplePayloadBad : List (String × JsonModel) :=
  [("max_attempts", { value := "-1", display_name := "Maximum Attempts" })]

/-- Witness for C4: at the sample inputs, deleting the excluded keys from the
payload leaves `update_from_json` unchanged. -/
theorem metadata_exclusion_list_respected_witness :
    update_from_json sampleCfg sampleDescriptor samplePayload true [] =
      update_from_json sampleCfg sampleDescriptor
        (samplePayload.filter
          (fun kv => !(get_exclude_list_of_fields sampleCfg).contains kv.1)) true [] :=
  (metadata_exclusion_list_respected sampleCfg sampleDescriptor samplePayload []).2.1

/-- Witness for C9 at a payload that fails validation: nothing is updated
and the descriptor is unchanged. -/
theorem validate_is_atomic_and_never_saves_witness :
    (validate_and_update_from_json sampleCfg sampleDescriptor samplePayloadBad
        true 0 "" true []).did_validate = false ∧
    ((validate_and_update_from_json sampleCfg sampleDescriptor samplePayloadBad
        true 0 "" true []).updated_data = none ∧
      (validate_and_update_from_json sampleCfg sampleDescriptor samplePayloadBad
        true 0 "" true []).descriptor = sampleDescriptor) :=
  ⟨by rfl,
    (validate_is_atomic_and_never_saves sampleCfg sampleDescriptor samplePayloadBad
      true 0 "" true []).1 (by rfl)⟩

end CourseMeta

